import Mathlib

/-!
Verification of the resource-registration builder in `pkg/builder/builder.go`.

The Go source is shallowly embedded: the `Server` builder state, its
registration methods, the `singletonProvider` memoization wrapper, the
deferred-error aggregation (`errs.Error`), and the build-time version
priority computation are all translated into executable Lean definitions.
Go maps become association lists (or boolean-valued functions for pure key
sets), Go pointers to `singletonProvider` become indices into an explicit
heap, and the opaque handler factories from `pkg/builder/rest` (spec §6:
backing-store factories are external collaborators, opaque to this core)
become a small deep datatype of provider values whose invocation semantics
are given explicitly.
-/

namespace Builder

/-! ## Identity triples (schema.GroupVersionResource and friends) -/

/-- Embeds `schema.GroupVersionResource`: (group, version, resource). -/
structure GroupVersionResource where
  group : String
  version : String
  resource : String
deriving DecidableEq, Repr

/-- Embeds `schema.GroupResource`: a GVR with the version discarded. -/
structure GroupResource where
  group : String
  resource : String
deriving DecidableEq, Repr

/-- Embeds `schema.GroupVersion`. -/
structure GroupVersion where
  group : String
  version : String
deriving DecidableEq, Repr

/-- `gvr.GroupResource()` in Go. -/
def GroupVersionResource.groupResource (g : GroupVersionResource) : GroupResource :=
  ⟨g.group, g.resource⟩

/-- `gvr.GroupVersion()` in Go. -/
def GroupVersionResource.groupVersion (g : GroupVersionResource) : GroupVersion :=
  ⟨g.group, g.version⟩

/-- `gv.WithResource(r)` in Go. -/
def GroupVersion.withResource (gv : GroupVersion) (r : String) : GroupVersionResource :=
  ⟨gv.group, gv.version, r⟩

/-! ## The generic `singletonProvider` (builder.go lines 370-384)

`singletonProvider.Get` wraps the provider in a `sync.Once`.  The claims
about it are sequential-functional (one invocation, cached pair), so the
`sync.Once` is embedded as a completion flag: `Once.Do(f)` runs `f` iff the
flag is unset and then sets it.  The ghost field `provCalls` counts how
often the wrapped `Provider` function has been invoked; it changes exactly
when the Go code would call `s.Provider(...)`. -/

/-- Embeds the `singletonProvider` struct generically: `Args` stands for the
`(*runtime.Scheme, generic.RESTOptionsGetter)` argument pair, `St` for
`regsitryrest.Storage`, `E` for `error`.  `storage` and `err` start as Go
zero values (`none`). -/
structure singletonProvider (Args St E : Type) where
  onceDone : Bool
  Provider : Args → Option St × Option E
  storage : Option St
  err : Option E
  provCalls : Nat

/-- Embeds `singletonProvider.Get` (builder.go lines 378-384): run the
provider under the once-gate, then return the stored pair. -/
def singletonProvider.Get {Args St E : Type} (s : singletonProvider Args St E)
    (args : Args) : singletonProvider Args St E × (Option St × Option E) :=
  let s' :=
    if s.onceDone then s
    else
      let r := s.Provider args
      { s with onceDone := true, storage := r.1, err := r.2,
               provCalls := s.provCalls + 1 }
  (s', (s'.storage, s'.err))

/-- A sequence of `Get` calls, threading the provider state and collecting
each call's returned `(storage, err)` pair. -/
def singletonProvider.runGets {Args St E : Type} :
    singletonProvider Args St E → List Args →
      singletonProvider Args St E × List (Option St × Option E)
  | s, [] => (s, [])
  | s, a :: rest =>
    let p := s.Get a
    let q := p.1.runGets rest
    (q.1, p.2 :: q.2)

theorem singletonProvider.get_of_done {Args St E : Type}
    (s : singletonProvider Args St E) (a : Args) (h : s.onceDone = true) :
    s.Get a = (s, (s.storage, s.err)) := by
  simp [singletonProvider.Get, h]

theorem singletonProvider.runGets_of_done {Args St E : Type}
    (s : singletonProvider Args St E) (l : List Args) (h : s.onceDone = true) :
    (s.runGets l).1 = s ∧ ∀ out ∈ (s.runGets l).2, out = (s.storage, s.err) := by
  induction l with
  | nil => simp [singletonProvider.runGets]
  | cons a rest ih =>
    simp only [singletonProvider.runGets, singletonProvider.get_of_done s a h]
    refine ⟨ih.1, ?_⟩
    intro out hout
    rcases List.mem_cons.mp hout with h1 | h2
    · exact h1
    · exact ih.2 out h2

/-- C1: for every fresh `singletonProvider` and every nonempty sequence of
`Get` calls with arbitrary arguments, the wrapped `Provider` factory is
invoked exactly once — on the first `Get`, with the first call's arguments —
and every `Get` call (the first included) returns the same stored
`(storage, err)` pair, namely the pair the factory produced; in particular a
once-returned error is returned by every later `Get` without re-invoking the
factory. -/
theorem singletonProvider_get_memoizes {Args St E : Type}
    (s0 : singletonProvider Args St E)
    (h0 : s0.onceDone = false) (hc : s0.provCalls = 0)
    (a0 : Args) (rest : List Args) :
    (s0.runGets (a0 :: rest)).1.provCalls = 1 ∧
      ∀ out ∈ (s0.runGets (a0 :: rest)).2, out = s0.Provider a0 := by
  have hget : s0.Get a0 =
      ({ s0 with onceDone := true, storage := (s0.Provider a0).1,
                 err := (s0.Provider a0).2, provCalls := s0.provCalls + 1 },
       ((s0.Provider a0).1, (s0.Provider a0).2)) := by
    simp [singletonProvider.Get, h0]
  have hrest := singletonProvider.runGets_of_done
    ({ s0 with onceDone := true, storage := (s0.Provider a0).1,
               err := (s0.Provider a0).2, provCalls := s0.provCalls + 1 })
    rest rfl
  constructor
  · simp only [singletonProvider.runGets, hget]
    rw [hrest.1]
    simp [hc]
  · intro out hout
    simp only [singletonProvider.runGets, hget] at hout
    rcases List.mem_cons.mp hout with h1 | h2
    · rw [h1]
    · have := hrest.2 out h2
      rw [this]

/-- Witness for C1 at a concrete provider and argument sequence. -/
def c1Example : singletonProvider Nat Nat Nat :=
  { onceDone := false, Provider := fun n => (some (n + 100), none),
    storage := none, err := none, provCalls := 0 }

theorem singletonProvider_get_memoizes_witness :
    (c1Example.runGets (5 :: [7, 9])).1.provCalls = 1 ∧
      ∀ out ∈ (c1Example.runGets (5 :: [7, 9])).2, out = c1Example.Provider 5 :=
  singletonProvider_get_memoizes c1Example rfl rfl 5 [7, 9]

/-! ## Association lists for Go maps -/

/-- Lookup in an association list, embedding Go map indexing `m[k]`. -/
def alookup {κ ν : Type} [DecidableEq κ] : List (κ × ν) → κ → Option ν
  | [], _ => none
  | (k', v') :: rest, k => if k' = k then some v' else alookup rest k

/-- Assignment `m[k] = v` on an association list: replace the binding if the
key is present, otherwise append. -/
def ainsert {κ ν : Type} [DecidableEq κ] : List (κ × ν) → κ → ν → List (κ × ν)
  | [], k, v => [(k, v)]
  | (k', v') :: rest, k, v =>
    if k' = k then (k, v) :: rest else (k', v') :: ainsert rest k v

theorem alookup_ainsert_self {κ ν : Type} [DecidableEq κ]
    (m : List (κ × ν)) (k : κ) (v : ν) : alookup (ainsert m k v) k = some v := by
  induction m with
  | nil => simp [ainsert, alookup]
  | cons p rest ih =>
    by_cases h : p.1 = k
    · simp [ainsert, h, alookup]
    · simp [ainsert, h, alookup, ih]

theorem alookup_ainsert_ne {κ ν : Type} [DecidableEq κ]
    (m : List (κ × ν)) (k k' : κ) (v : ν) (h : k ≠ k') :
    alookup (ainsert m k v) k' = alookup m k' := by
  induction m with
  | nil => simp [ainsert, alookup, h]
  | cons p rest ih =>
    by_cases hp : p.1 = k
    · simp [ainsert, hp, alookup, h]
    · simp [ainsert, hp, alookup, ih]

theorem mem_ainsert {κ ν : Type} [DecidableEq κ]
    (m : List (κ × ν)) (k : κ) (v : ν) (p : κ × ν) (h : p ∈ ainsert m k v) :
    p = (k, v) ∨ p ∈ m := by
  induction m with
  | nil => simpa [ainsert] using h
  | cons q rest ih =>
    by_cases hq : q.1 = k
    · simp only [ainsert, hq, if_pos rfl] at h
      rcases List.mem_cons.mp h with h1 | h2
      · exact Or.inl h1
      · exact Or.inr (List.mem_cons_of_mem _ h2)
    · simp only [ainsert, hq, if_neg hq] at h
      rcases List.mem_cons.mp h with h1 | h2
      · exact Or.inr (h1 ▸ List.mem_cons_self _ _)
      · rcases ih h2 with h3 | h4
        · exact Or.inl h3
        · exact Or.inr (List.mem_cons_of_mem _ h4)

/-! ## Handler providers

Modelled from the spec: the concrete `rest.ResourceHandlerProvider` factories
(`rest.New`, `rest.NewStatus`, `rest.NewWithStrategy`,
`rest.NewStatusWithStrategy`, `rest.NewWithFn`, `rest.NewStatusWithFn`,
`rest.StaticHandlerProvider{...}.Get`) live in `pkg/builder/rest`, which is
repository code not present under `src/`.  Per spec §3/§6 a handler provider
is "an opaque, callable factory `(schemaInfo, storageOptions) → (Handler,
error)`; the registry never inspects its internals", and per §4.2 a
self-serving type "is used as the handler, bypassing default construction
entirely".  Providers are therefore embedded as first-class values
identified by the ids of the objects/strategies they close over, with
fresh-construction semantics for the store factories and
same-instance semantics for the static provider. -/

/-- A `rest.ResourceHandlerProvider` value as it appears in the builder:
either one of the factory closures from `pkg/builder/rest` (identified by the
object/strategy/function ids it closed over), a caller-supplied provider, or
the bound method `s.Get` of the `singletonProvider` stored at heap index
`ptr`. -/
inductive Provider where
  | restNew (objId : Nat)
  | restNewStatus (objId : Nat)
  | restNewWithStrategy (objId sid : Nat)
  | restNewStatusWithStrategy (objId sid : Nat)
  | restNewWithFn (objId fid : Nat)
  | restNewStatusWithFn (objId fid : Nat)
  | staticHandler (objId : Nat)
  | userProvided (pid : Nat)
  | singletonGet (ptr : Nat)
deriving DecidableEq, Repr

/-- A handler (`regsitryrest.Storage`) instance: either a freshly constructed
store (numbered by construction order) or a self-serving resource object used
directly as its own handler. -/
inductive StorageVal where
  | fresh (n : Nat)
  | staticObj (objId : Nat)
deriving DecidableEq, Repr

/-- Embeds the `singletonProvider` struct as it sits on the heap inside the
builder: completion flag for the `sync.Once`, wrapped provider, and the
cached `(storage, err)` pair (Go zero values = `none`). -/
structure Singleton where
  done : Bool
  Provider : Provider
  storage : Option StorageVal
  err : Option Nat
deriving DecidableEq, Repr

/-! ## The builder state (`Server` struct, builder.go lines 48-55)

`storage` is the `map[schema.GroupResource]*singletonProvider` field with
pointers embedded as indices into `heap`; `groupVersions` is the
`map[schema.GroupVersion]bool` key set as a boolean-valued function;
`schemes`/`schemeBuilder` hold the ids of the additional schemes and of the
registered scheme-installer functions; `apis` is the package-level
`apiserver.APIs` map the builder writes through; `typeDefaulting` records the
`AddTypeDefaultingFunc` registrations; `observed` is a ghost trace of every
group-version passed to `withGroupVersions`, appended exactly when the Go
code iterates a version in that method. -/

/-- Embeds a Go error message as its character list. -/
abbrev Str := List Char

/-- The deferred-error message appended by `WithSubResource`
(builder.go lines 247-248). -/
def subResourceErrMsg : Str :=
  ("subresources must be registered with a strategy or handler" ++
    " the first time they are registered").data

/-- Embeds the `Server` builder struct together with the package-level state
it writes through (`apiserver.APIs`, the defaulting-function registrations)
and the heap of `singletonProvider` allocations. -/
structure Server where
  errs : List Str
  storage : List (GroupResource × Nat)
  groupVersions : GroupVersion → Bool
  orderedGroupVersions : List GroupVersion
  schemes : List Nat
  schemeBuilder : List Nat
  heap : List Singleton
  apis : List (GroupVersionResource × Provider)
  typeDefaulting : List Nat
  observed : List GroupVersion

/-- The initial `APIServer` value (builder.go lines 43-45): empty storage
map, nil everything else, and an empty `apiserver.APIs` world. -/
def initialServer : Server :=
  { errs := [], storage := [], groupVersions := fun _ => false,
    orderedGroupVersions := [], schemes := [], schemeBuilder := [],
    heap := [], apis := [], typeDefaulting := [], observed := [] }

/-- One step of `withGroupVersions` (builder.go lines 283-289): skip a
group-version already in the map, otherwise add it to the map and append it
to `orderedGroupVersions`.  The ghost `observed` trace is extended either
way. -/
def Server.observeGV (s : Server) (gv : GroupVersion) : Server :=
  let s1 := { s with observed := s.observed ++ [gv] }
  if s1.groupVersions gv then s1
  else
    { s1 with
      groupVersions := fun x => if x = gv then true else s1.groupVersions x,
      orderedGroupVersions := s1.orderedGroupVersions ++ [gv] }

/-- Embeds `Server.withGroupVersions` (builder.go lines 279-291). -/
def Server.withGroupVersions (s : Server) (versions : List GroupVersion) : Server :=
  versions.foldl Server.observeGV s

/-- Embeds `Server.forGroupVersionResource` (builder.go lines 209-231):
record the group version; allocate a `singletonProvider` for the
group-resource only if none exists (never replace); register the defaulting
function when the object implements `resourcestrategy.Defaulter`; bind the
passed provider (not the singleton) into `apiserver.APIs` under the full
GVR. -/
def Server.forGroupVersionResource (s : Server) (gvr : GroupVersionResource)
    (objIsDefaulter : Bool) (objId : Nat) (sp : Provider) : Server :=
  let s1 := s.withGroupVersions [gvr.groupVersion]
  let s2 :=
    match alookup s1.storage gvr.groupResource with
    | some _ => s1
    | none =>
      { s1 with
        heap := s1.heap ++ [Singleton.mk false sp none none],
        storage := ainsert s1.storage gvr.groupResource s1.heap.length }
  let s3 :=
    if objIsDefaulter then
      { s2 with typeDefaulting := s2.typeDefaulting ++ [objId] }
    else s2
  { s3 with apis := ainsert s3.apis gvr sp }

/-- A `resource.Object` as the builder inspects it: its GVR plus the results
of the capability probes (`resourcerest.Creator/Updater/Getter/Lister`,
`resource.ObjectWithStatusSubResource`, `resourcestrategy.Defaulter`) and an
identity for the underlying value. -/
structure ResourceObject where
  gvr : GroupVersionResource
  isCreator : Bool
  isUpdater : Bool
  isGetter : Bool
  isLister : Bool
  hasStatusSub : Bool
  isDefaulter : Bool
  objId : Nat
deriving DecidableEq, Repr

/-- The four-way type switch of `WithResource` (builder.go lines 126-135):
all four cases use the object itself as a static handler. -/
def ResourceObject.selfServing (o : ResourceObject) : Bool :=
  o.isCreator || o.isUpdater || o.isGetter || o.isLister

/-- The status sub-resource GVR `gvr.GroupVersion().WithResource(gvr.Resource
+ "/status")` (builder.go line 141). -/
def statusGVR (gvr : GroupVersionResource) : GroupVersionResource :=
  gvr.groupVersion.withResource (gvr.resource ++ "/status")

/-- Embeds `Server.WithResource` (builder.go lines 115-150). -/
def Server.withResource (s : Server) (obj : ResourceObject) : Server :=
  let gvr := obj.gvr
  let s := { s with schemeBuilder := s.schemeBuilder ++ [obj.objId] }
  match alookup s.storage gvr.groupResource with
  | some ptr =>
    s.forGroupVersionResource gvr obj.isDefaulter obj.objId (.singletonGet ptr)
  | none =>
    if obj.selfServing then
      s.forGroupVersionResource gvr obj.isDefaulter obj.objId
        (.staticHandler obj.objId)
    else
      let s := s.forGroupVersionResource gvr obj.isDefaulter obj.objId
        (.restNew obj.objId)
      if obj.hasStatusSub then
        let st := statusGVR gvr
        match alookup s.storage st.groupResource with
        | some ptr =>
          s.forGroupVersionResource st obj.isDefaulter obj.objId
            (.singletonGet ptr)
        | none =>
          s.forGroupVersionResource st obj.isDefaulter obj.objId
            (.restNewStatus obj.objId)
      else s

/-- Embeds `Server.WithResourceAndStrategy` (builder.go lines 158-170). -/
def Server.withResourceAndStrategy (s : Server) (obj : ResourceObject)
    (sid : Nat) : Server :=
  let gvr := obj.gvr
  let s := { s with schemeBuilder := s.schemeBuilder ++ [obj.objId] }
  let s := s.forGroupVersionResource gvr obj.isDefaulter obj.objId
    (.restNewWithStrategy obj.objId sid)
  if obj.hasStatusSub then
    s.forGroupVersionResource (statusGVR gvr) obj.isDefaulter obj.objId
      (.restNewStatusWithStrategy obj.objId sid)
  else s

/-- Embeds `Server.WithResourceAndHandler` (builder.go lines 179-183). -/
def Server.withResourceAndHandler (s : Server) (obj : ResourceObject)
    (pid : Nat) : Server :=
  let s := { s with schemeBuilder := s.schemeBuilder ++ [obj.objId] }
  s.forGroupVersionResource obj.gvr obj.isDefaulter obj.objId (.userProvided pid)

/-- Embeds `Server.WithResourceAndStorage` (builder.go lines 193-206). -/
def Server.withResourceAndStorage (s : Server) (obj : ResourceObject)
    (fid : Nat) : Server :=
  let gvr := obj.gvr
  let s := { s with schemeBuilder := s.schemeBuilder ++ [obj.objId] }
  let s := s.forGroupVersionResource gvr obj.isDefaulter obj.objId
    (.restNewWithFn obj.objId fid)
  if obj.hasStatusSub then
    s.forGroupVersionResource (statusGVR gvr) obj.isDefaulter obj.objId
      (.restNewStatusWithFn obj.objId fid)
  else s

/-- The derived sub-resource GVR: parent resource name + "/" + subPath
(builder.go lines 240-241). -/
def subResourceGVR (parent : ResourceObject) (path : String) :
    GroupVersionResource :=
  { parent.gvr with resource := parent.gvr.resource ++ "/" ++ path }

/-- Embeds `Server.WithSubResource` (builder.go lines 238-251): reuse the
existing singleton's `Get` if the child group-resource is registered,
otherwise record a deferred error and leave everything else alone. -/
def Server.withSubResource (s : Server) (parent : ResourceObject)
    (path : String) (req : ResourceObject) : Server :=
  let gvr := subResourceGVR parent path
  match alookup s.storage gvr.groupResource with
  | some ptr =>
    s.forGroupVersionResource gvr req.isDefaulter req.objId (.singletonGet ptr)
  | none => { s with errs := s.errs ++ [subResourceErrMsg] }

/-- Embeds `Server.WithSubResourceAndStrategy` (builder.go lines 258-263). -/
def Server.withSubResourceAndStrategy (s : Server) (parent : ResourceObject)
    (path : String) (req : ResourceObject) (sid : Nat) : Server :=
  s.forGroupVersionResource (subResourceGVR parent path) req.isDefaulter
    req.objId (.restNewWithStrategy req.objId sid)

/-- Embeds `Server.WithSubResourceAndHandler` (builder.go lines 270-276). -/
def Server.withSubResourceAndHandler (s : Server) (parent : ResourceObject)
    (path : String) (req : ResourceObject) (pid : Nat) : Server :=
  s.forGroupVersionResource (subResourceGVR parent path) req.isDefaulter
    req.objId (.userProvided pid)

/-! ## Handler retrieval

Modelled from the spec: the consumer of `apiserver.APIs` is the sample
apiserver under `internal/sample-apiserver` (repository code not present
under `src/`).  Per spec §2/§4.5 the builder produces a "flattened view used
by the serving layer" mapping each full resource key to its handler binding,
and retrieving the handler for a version means invoking that version's bound
provider once (spec §6: the type-registry/serving layer calls the factory
`(type-schema, storage-options) → (Handler, error)`).  `RetrievalWorld`
carries the heap of singletons shared with the builder, a counter for fresh
store construction, and a ghost log of every raw factory invocation. -/

/-- The state threaded through handler retrievals: the singleton heap, the
number of fresh stores constructed so far, and the ghost invocation log of
the underlying factories. -/
structure RetrievalWorld where
  heap : List Singleton
  freshCount : Nat
  callLog : List Provider
deriving Repr

/-- Invoking a non-singleton provider: the static provider returns the
self-serving object itself (same instance every time); every factory from
`pkg/builder/rest` and every caller-supplied provider constructs a fresh
store.  Both are logged.  (`singletonGet` is handled by
`invokeProviderFuel`; here it is a no-op.) -/
def invokeBase (w : RetrievalWorld) (p : Provider) :
    RetrievalWorld × (Option StorageVal × Option Nat) :=
  match p with
  | .singletonGet _ => (w, (none, none))
  | .staticHandler objId =>
    ({ w with callLog := w.callLog ++ [p] }, (some (.staticObj objId), none))
  | _ =>
    ({ w with callLog := w.callLog ++ [p], freshCount := w.freshCount + 1 },
     (some (.fresh w.freshCount), none))

/-- Invoking a provider, with fuel to bound the chain of `singletonGet`
indirections (`singletonProvider.Get`, builder.go lines 378-384: if the
singleton is done return the cached pair, otherwise run its wrapped provider
once, cache, and return).  In every state the builder can reach a singleton
never wraps another `singletonGet`, so fuel `heap.length + 1` is never
exhausted; a cyclic heap would deadlock the `sync.Once` in Go and is out of
scope. -/
def invokeProviderFuel :
    Nat → RetrievalWorld → Provider →
      RetrievalWorld × (Option StorageVal × Option Nat)
  | 0, w, _ => (w, (none, none))
  | Nat.succ fuel, w, Provider.singletonGet ptr =>
    (match w.heap[ptr]? with
     | none => (w, (none, none))
     | some sg =>
       if sg.done then (w, (sg.storage, sg.err))
       else
         let r := invokeProviderFuel fuel w sg.Provider
         ({ r.1 with
             heap := r.1.heap.set ptr
               { sg with done := true, storage := r.2.1, err := r.2.2 } },
          r.2))
  | Nat.succ _, w, p => invokeBase w p

/-- Invoking a provider with enough fuel for any acyclic heap. -/
def invokeProvider (w : RetrievalWorld) (p : Provider) :
    RetrievalWorld × (Option StorageVal × Option Nat) :=
  invokeProviderFuel (w.heap.length + 1) w p

/-- The retrieval world as it stands when the builder hands its heap to the
serving layer. -/
def Server.initWorld (s : Server) : RetrievalWorld :=
  { heap := s.heap, freshCount := 0, callLog := [] }

/-- Retrieving the handler for one version: invoke the provider bound in
`apiserver.APIs` under that GVR. -/
def retrieveHandler (s : Server) (w : RetrievalWorld)
    (gvr : GroupVersionResource) :
    RetrievalWorld × (Option StorageVal × Option Nat) :=
  match alookup s.apis gvr with
  | some p => invokeProvider w p
  | none => (w, (none, none))

/-! ## Deferred-error aggregation (`errs`, builder.go lines 386-396) -/

/-- Decimal digit character, as produced by `fmt.Sprintf("%d", ...)`. -/
def decDigitChar (d : Nat) : Char := Char.ofNat (48 + d % 10)

/-- Decimal rendering of a natural number, most significant digit first,
with structural fuel. -/
def natToDecAux : Nat → Nat → List Char → List Char
  | 0, _, acc => acc
  | Nat.succ fuel, n, acc =>
    let acc' := decDigitChar (n % 10) :: acc
    if n < 10 then acc' else natToDecAux fuel (n / 10) acc'

/-- Embeds `fmt.Sprintf("%d", n)` for a nonnegative count. -/
def natToDecChars (n : Nat) : List Char := natToDecAux (n + 1) n []

/-- The literal part of the count line `"%d errors: "`. -/
def countSuffix : Str := " errors: ".data

/-- Embeds `strings.Join(msgs, "\n")` (builder.go line 395). -/
def joinWithNewlines : List Str → Str
  | [] => []
  | m :: rest =>
    match rest with
    | [] => m
    | _ => m ++ '\n' :: joinWithNewlines rest

/-- Embeds `errs.Error()` (builder.go lines 390-396): a count line
`"%d errors: "` followed by each underlying message, joined with
newlines. -/
def errsError (list : List Str) : Str :=
  joinWithNewlines ((natToDecChars list.length ++ countSuffix) :: list)

/-- Splitting a string into its newline-separated lines (the reader's view of
the formatted aggregate message). -/
def splitLines : Str → List Str
  | [] => [[]]
  | c :: rest =>
    match splitLines rest with
    | [] => [[]]
    | line :: more =>
      if c = '\n' then [] :: line :: more else (c :: line) :: more

/-! ## `Build()` (builder.go lines 316-359)

Modelled from the spec where it leaves `src/`: `runtime.SchemeBuilder` and
`runtime.Scheme` are external collaborators (spec §6, "Type-registry: ...
This core only calls these, never implements them"), so the effect of
applying one registered installer function to one scheme is an opaque
environment returning an optional error.  `AddToScheme` runs the registered
functions in registration order and stops at the first error; `Build`
registers the version-priority callback last, appends the base
`apiserver.Scheme` to the target schemes, applies everything, and panics on
the first failure (builder.go line 348) before the deferred-error check. -/

/-- Opaque semantics of scheme installation: `run f sid` applies registered
installer `f` to scheme `sid`; `runPriority sid` applies the
version-priority callback `Build` registers (builder.go lines 318-345). -/
structure InstallerEnv where
  run : Nat → Nat → Option Str
  runPriority : Nat → Option Str

/-- Embeds `schemeBuilder.AddToScheme(scheme)` for the builder as it stands
inside `Build`: the user-registered installers in order, then the
version-priority callback registered last; first error wins. -/
def runInstallersOn (env : InstallerEnv) (fns : List Nat) (sid : Nat) :
    Option Str :=
  match fns with
  | [] => env.runPriority sid
  | f :: rest =>
    match env.run f sid with
    | some e => some e
    | none => runInstallersOn env rest sid

/-- The first installation error over the target schemes in order
(builder.go lines 346-350). -/
def firstInstallErr (env : InstallerEnv) (fns : List Nat) (sids : List Nat) :
    Option Str :=
  match sids with
  | [] => none
  | sid :: rest =>
    match runInstallersOn env fns sid with
    | some e => some e
    | none => firstInstallErr env fns rest

/-- The outcome of `Build()`: a Go panic (builder.go line 348), the
`(nil, errs{...})` return (line 353), or the successful command carrying the
accumulated ordered group-versions (lines 355-358). -/
inductive BuildResult where
  | panicked (e : Str)
  | returnedErr (list : List Str)
  | ok (gvs : List GroupVersion)
deriving DecidableEq, Repr

/-- The id of the base `apiserver.Scheme` appended at the start of `Build`
(builder.go line 317). -/
def baseSchemeId : Nat := 0

/-- Embeds `Server.Build` (builder.go lines 316-359): append the base scheme,
apply every registered installer (priority callback last) to every target
scheme panicking on the first error, then either return the aggregated
deferred errors or the runnable command. -/
def Server.build (env : InstallerEnv) (s : Server) : BuildResult :=
  let sids := s.schemes ++ [baseSchemeId]
  match firstInstallErr env s.schemeBuilder sids with
  | some e => .panicked e
  | none =>
    if s.errs.isEmpty then .ok s.orderedGroupVersions
    else .returnedErr s.errs

/-! ## Version-priority computation (builder.go lines 320-339)

The callback `Build` registers collects, for each group, the set of versions
among the keys of `apiserver.APIs` (`sets.String.Insert`), and passes
`versions.List()` — the sorted list of the set — to
`scheme.SetVersionPriority`.  The per-group list is embedded directly: the
versions of the group's keys, deduplicated (set insertion) and sorted
(`sets.String.List`). -/

/-- The distinct versions observed for group `g` among the `apiserver.APIs`
keys (the `groupVersions[gvr.Group].Insert(gvr.Version)` loop,
builder.go lines 320-326). -/
def observedVersions (apis : List GroupVersionResource) (g : String) :
    List String :=
  ((apis.filter (fun gvr => gvr.group == g)).map (fun gvr => gvr.version)).dedup

/-- The ordered version list passed to `SetVersionPriority` for group `g`:
`versions.List()`, i.e. the observed versions in sorted string order
(builder.go lines 327-335). -/
def versionPriority (apis : List GroupVersionResource) (g : String) :
    List String :=
  (observedVersions apis g).insertionSort (· ≤ ·)

/-! ## Registration sequences

Every public registration entry point of the builder, as one reified
operation; `applyOps` plays a whole fluent chain against a state. -/

/-- One registration call against the builder. -/
inductive Op where
  | withResource (obj : ResourceObject)
  | withResourceAndStrategy (obj : ResourceObject) (sid : Nat)
  | withResourceAndHandler (obj : ResourceObject) (pid : Nat)
  | withResourceAndStorage (obj : ResourceObject) (fid : Nat)
  | withSubResource (parent : ResourceObject) (path : String)
      (req : ResourceObject)
  | withSubResourceAndStrategy (parent : ResourceObject) (path : String)
      (req : ResourceObject) (sid : Nat)
  | withSubResourceAndHandler (parent : ResourceObject) (path : String)
      (req : ResourceObject) (pid : Nat)
deriving Repr

/-- Apply one registration call. -/
def applyOp (s : Server) : Op → Server
  | .withResource obj => s.withResource obj
  | .withResourceAndStrategy obj sid => s.withResourceAndStrategy obj sid
  | .withResourceAndHandler obj pid => s.withResourceAndHandler obj pid
  | .withResourceAndStorage obj fid => s.withResourceAndStorage obj fid
  | .withSubResource parent path req => s.withSubResource parent path req
  | .withSubResourceAndStrategy parent path req sid =>
    s.withSubResourceAndStrategy parent path req sid
  | .withSubResourceAndHandler parent path req pid =>
    s.withSubResourceAndHandler parent path req pid

/-- Apply a fluent chain of registration calls in order. -/
def applyOps (s : Server) (ops : List Op) : Server :=
  ops.foldl applyOp s

/-- First-seen deduplication of an observation trace: the order in which
distinct group-versions were first observed. -/
def firstSeenStep (acc : List GroupVersion) (gv : GroupVersion) :
    List GroupVersion :=
  if gv ∈ acc then acc else acc ++ [gv]

/-- The distinct group-versions of a trace in first-seen order. -/
def firstSeen (l : List GroupVersion) : List GroupVersion :=
  l.foldl firstSeenStep []

/-! ## Frame lemmas for the registration primitives -/

theorem Server.observeGV_frame (s : Server) (gv : GroupVersion) :
    (s.observeGV gv).storage = s.storage ∧ (s.observeGV gv).heap = s.heap ∧
      (s.observeGV gv).apis = s.apis ∧ (s.observeGV gv).errs = s.errs ∧
      (s.observeGV gv).schemes = s.schemes ∧
      (s.observeGV gv).schemeBuilder = s.schemeBuilder ∧
      (s.observeGV gv).typeDefaulting = s.typeDefaulting := by
  unfold Server.observeGV
  dsimp only
  split <;> exact ⟨rfl, rfl, rfl, rfl, rfl, rfl, rfl⟩

theorem Server.withGroupVersions_single (s : Server) (gv : GroupVersion) :
    s.withGroupVersions [gv] = s.observeGV gv := by
  simp [Server.withGroupVersions]

/-- When the group-resource already has a `singletonProvider`, registering
through `forGroupVersionResource` leaves the storage map and the heap
untouched and binds the passed provider into `apiserver.APIs`. -/
theorem Server.forGVR_found_frame (s : Server) (gvr : GroupVersionResource)
    (d : Bool) (oid : Nat) (sp : Provider) (ptr : Nat)
    (h : alookup s.storage gvr.groupResource = some ptr) :
    (s.forGroupVersionResource gvr d oid sp).storage = s.storage ∧
      (s.forGroupVersionResource gvr d oid sp).heap = s.heap ∧
      (s.forGroupVersionResource gvr d oid sp).apis = ainsert s.apis gvr sp := by
  unfold Server.forGroupVersionResource
  rw [Server.withGroupVersions_single]
  have hf := Server.observeGV_frame s gvr.groupVersion
  dsimp only
  rw [hf.1, h]
  dsimp only
  split <;> exact ⟨hf.1, hf.2.1, by rw [hf.2.2.1]⟩

/-- When the group-resource has no `singletonProvider` yet,
`forGroupVersionResource` allocates one wrapping the passed provider, stores
its pointer, and binds the passed provider into `apiserver.APIs`. -/
theorem Server.forGVR_notfound (s : Server) (gvr : GroupVersionResource)
    (d : Bool) (oid : Nat) (sp : Provider)
    (h : alookup s.storage gvr.groupResource = none) :
    (s.forGroupVersionResource gvr d oid sp).storage =
        ainsert s.storage gvr.groupResource s.heap.length ∧
      (s.forGroupVersionResource gvr d oid sp).heap =
        s.heap ++ [Singleton.mk false sp none none] ∧
      (s.forGroupVersionResource gvr d oid sp).apis = ainsert s.apis gvr sp := by
  unfold Server.forGroupVersionResource
  rw [Server.withGroupVersions_single]
  have hf := Server.observeGV_frame s gvr.groupVersion
  dsimp only
  rw [hf.1, h]
  dsimp only
  split <;>
    exact ⟨by dsimp only; rw [hf.2.1], by dsimp only; rw [hf.2.1],
      by dsimp only; rw [hf.2.2.1]⟩

/-- C2: the spec asserts that registering two versions of the same
group-resource through `WithResource` and then retrieving each version's
handler yields one factory invocation and the identical handler.  Evaluating
the code at that very input refutes it: the first registration binds the raw
provider `rest.New(obj1)` into `apiserver.APIs` (builder.go line 229 stores
`sp`, not the singleton's `Get`), so retrieving v1 invokes the factory
directly while retrieving v2 goes through the singleton and invokes the same
factory a second time, producing a distinct handler instance — the factory
runs twice and the two versions do not share storage, contradicting the
clause and the code's own comment on `singletonProvider`
(builder.go line 370). -/
theorem withResource_shared_handler_bug :
    (retrieveHandler
        ((initialServer.withResource
              (ResourceObject.mk ⟨"apps", "v1", "widgets"⟩
                false false false false false false 1)).withResource
          (ResourceObject.mk ⟨"apps", "v2", "widgets"⟩
            false false false false false false 2))
        (retrieveHandler
            ((initialServer.withResource
                  (ResourceObject.mk ⟨"apps", "v1", "widgets"⟩
                    false false false false false false 1)).withResource
              (ResourceObject.mk ⟨"apps", "v2", "widgets"⟩
                false false false false false false 2))
            (Server.initWorld
              ((initialServer.withResource
                    (ResourceObject.mk ⟨"apps", "v1", "widgets"⟩
                      false false false false false false 1)).withResource
                (ResourceObject.mk ⟨"apps", "v2", "widgets"⟩
                  false false false false false false 2)))
            ⟨"apps", "v1", "widgets"⟩).1
        ⟨"apps", "v2", "widgets"⟩).1.callLog =
        [Provider.restNew 1, Provider.restNew 1] ∧
      (retrieveHandler
          ((initialServer.withResource
                (ResourceObject.mk ⟨"apps", "v1", "widgets"⟩
                  false false false false false false 1)).withResource
            (ResourceObject.mk ⟨"apps", "v2", "widgets"⟩
              false false false false false false 2))
          (Server.initWorld
            ((initialServer.withResource
                  (ResourceObject.mk ⟨"apps", "v1", "widgets"⟩
                    false false false false false false 1)).withResource
              (ResourceObject.mk ⟨"apps", "v2", "widgets"⟩
                false false false false false false 2)))
          ⟨"apps", "v1", "widgets"⟩).2.1 = some (StorageVal.fresh 0) ∧
      (retrieveHandler
          ((initialServer.withResource
                (ResourceObject.mk ⟨"apps", "v1", "widgets"⟩
                  false false false false false false 1)).withResource
            (ResourceObject.mk ⟨"apps", "v2", "widgets"⟩
              false false false false false false 2))
          (retrieveHandler
              ((initialServer.withResource
                    (ResourceObject.mk ⟨"apps", "v1", "widgets"⟩
                      false false false false false false 1)).withResource
                (ResourceObject.mk ⟨"apps", "v2", "widgets"⟩
                  false false false false false false 2))
              (Server.initWorld
                ((initialServer.withResource
                      (ResourceObject.mk ⟨"apps", "v1", "widgets"⟩
                        false false false false false false 1)).withResource
                  (ResourceObject.mk ⟨"apps", "v2", "widgets"⟩
                    false false false false false false 2)))
              ⟨"apps", "v1", "widgets"⟩).1
          ⟨"apps", "v2", "widgets"⟩).2.1 = some (StorageVal.fresh 1) := by
  decide

/-- C10: on the error path of `WithSubResource` (no provider for the derived
child group-resource), the only state change is the appended deferred error:
the storage map, the per-GVR `apiserver.APIs` bindings, the group-version map
and the ordered group-version list (and the singleton heap) are unchanged,
so the fluent chain continues on the same builder value. -/
theorem withSubResource_error_frame (s : Server) (parent req : ResourceObject)
    (path : String)
    (h : alookup s.storage (subResourceGVR parent path).groupResource = none) :
    (s.withSubResource parent path req).storage = s.storage ∧
      (s.withSubResource parent path req).apis = s.apis ∧
      (s.withSubResource parent path req).groupVersions = s.groupVersions ∧
      (s.withSubResource parent path req).orderedGroupVersions =
        s.orderedGroupVersions ∧
      (s.withSubResource parent path req).heap = s.heap ∧
      (s.withSubResource parent path req).errs = s.errs ++ [subResourceErrMsg] := by
  unfold Server.withSubResource
  dsimp only
  rw [h]
  exact ⟨rfl, rfl, rfl, rfl, rfl, rfl⟩

/-- Witness for C10 at a concrete builder state and sub-resource call. -/
theorem withSubResource_error_frame_witness :
    ((initialServer.withResourceAndHandler
          (ResourceObject.mk ⟨"apps", "v1", "widgets"⟩
            false false false false false false 1) 1).withSubResource
        (ResourceObject.mk ⟨"apps", "v1", "widgets"⟩
          false false false false false false 1) "scale"
        (ResourceObject.mk ⟨"apps", "v1", "widgets"⟩
          false false false false false false 9)).storage =
        (initialServer.withResourceAndHandler
          (ResourceObject.mk ⟨"apps", "v1", "widgets"⟩
            false false false false false false 1) 1).storage ∧
      ((initialServer.withResourceAndHandler
            (ResourceObject.mk ⟨"apps", "v1", "widgets"⟩
              false false false false false false 1) 1).withSubResource
          (ResourceObject.mk ⟨"apps", "v1", "widgets"⟩
            false false false false false false 1) "scale"
          (ResourceObject.mk ⟨"apps", "v1", "widgets"⟩
            false false false false false false 9)).apis =
        (initialServer.withResourceAndHandler
          (ResourceObject.mk ⟨"apps", "v1", "widgets"⟩
            false false false false false false 1) 1).apis ∧
      ((initialServer.withResourceAndHandler
            (ResourceObject.mk ⟨"apps", "v1", "widgets"⟩
              false false false false false false 1) 1).withSubResource
          (ResourceObject.mk ⟨"apps", "v1", "widgets"⟩
            false false false false false false 1) "scale"
          (ResourceObject.mk ⟨"apps", "v1", "widgets"⟩
            false false false false false false 9)).groupVersions =
        (initialServer.withResourceAndHandler
          (ResourceObject.mk ⟨"apps", "v1", "widgets"⟩
            false false false false false false 1) 1).groupVersions ∧
      ((initialServer.withResourceAndHandler
            (ResourceObject.mk ⟨"apps", "v1", "widgets"⟩
              false false false false false false 1) 1).withSubResource
          (ResourceObject.mk ⟨"apps", "v1", "widgets"⟩
            false false false false false false 1) "scale"
          (ResourceObject.mk ⟨"apps", "v1", "widgets"⟩
            false false false false false false 9)).orderedGroupVersions =
        (initialServer.withResourceAndHandler
          (ResourceObject.mk ⟨"apps", "v1", "widgets"⟩
            false false false false false false 1) 1).orderedGroupVersions ∧
      ((initialServer.withResourceAndHandler
            (ResourceObject.mk ⟨"apps", "v1", "widgets"⟩
              false false false false false false 1) 1).withSubResource
          (ResourceObject.mk ⟨"apps", "v1", "widgets"⟩
            false false false false false false 1) "scale"
          (ResourceObject.mk ⟨"apps", "v1", "widgets"⟩
            false false false false false false 9)).heap =
        (initialServer.withResourceAndHandler
          (ResourceObject.mk ⟨"apps", "v1", "widgets"⟩
            false false false false false false 1) 1).heap ∧
      ((initialServer.withResourceAndHandler
            (ResourceObject.mk ⟨"apps", "v1", "widgets"⟩
              false false false false false false 1) 1).withSubResource
          (ResourceObject.mk ⟨"apps", "v1", "widgets"⟩
            false false false false false false 1) "scale"
          (ResourceObject.mk ⟨"apps", "v1", "widgets"⟩
            false false false false false false 9)).errs =
        (initialServer.withResourceAndHandler
          (ResourceObject.mk ⟨"apps", "v1", "widgets"⟩
            false false false false false false 1) 1).errs ++
          [subResourceErrMsg] :=
  withSubResource_error_frame _ _ _ _ (by decide)

/-- C3 counterexample: registering `(apps, v1, widgets)` through
`WithResourceAndHandler` with factory `userProvided 1` and then re-registering
the same group-resource at `v2` with a second factory `userProvided 2` keeps
the stored `singletonProvider` wrapping the first factory, but binds the
second factory into `apiserver.APIs` for `v2` — retrieving the handler for
`v2` invokes the second factory, not the first, refuting "handler retrieval
for every version of that GroupResource still invokes only the first
factory". -/
theorem reregistration_second_factory_invoked :
    (retrieveHandler
        ((initialServer.withResourceAndHandler
              (ResourceObject.mk ⟨"apps", "v1", "widgets"⟩
                false false false false false false 1) 1).withResourceAndHandler
          (ResourceObject.mk ⟨"apps", "v2", "widgets"⟩
            false false false false false false 2) 2)
        (Server.initWorld
          ((initialServer.withResourceAndHandler
                (ResourceObject.mk ⟨"apps", "v1", "widgets"⟩
                  false false false false false false 1) 1).withResourceAndHandler
            (ResourceObject.mk ⟨"apps", "v2", "widgets"⟩
              false false false false false false 2) 2))
        ⟨"apps", "v2", "widgets"⟩).1.callLog = [Provider.userProvided 2] ∧
      ((initialServer.withResourceAndHandler
            (ResourceObject.mk ⟨"apps", "v1", "widgets"⟩
              false false false false false false 1) 1).withResourceAndHandler
          (ResourceObject.mk ⟨"apps", "v2", "widgets"⟩
            false false false false false false 2) 2).heap =
        [Singleton.mk false (Provider.userProvided 1) none none] ∧
      Provider.userProvided 2 ≠ Provider.userProvided 1 := by
  decide

/-- C3 (amended): a later registration of an already-registered
group-resource with a second factory never replaces the stored
`singletonProvider` — the storage map and the heap are unchanged, whichever
entry point performed the re-registration — and the `WithResource` entry
point binds the existing singleton's `Get` for the new version, so its
retrieval invokes only the first factory.  However, the per-GVR
`apiserver.APIs` binding created by the re-registration is the provider the
entry point passed, so entry points that pass a fresh factory directly
(`WithResourceAndHandler`, `WithResourceAndStrategy`,
`WithSubResourceAndHandler`, `WithSubResourceAndStrategy`) bind the second
factory for the newly registered version. -/
theorem reregistration_keeps_singleton (s : Server) (obj : ResourceObject)
    (d : Bool) (oid : Nat) (sp : Provider) (ptr : Nat)
    (h : alookup s.storage obj.gvr.groupResource = some ptr) :
    (s.forGroupVersionResource obj.gvr d oid sp).storage = s.storage ∧
      (s.forGroupVersionResource obj.gvr d oid sp).heap = s.heap ∧
      alookup (s.forGroupVersionResource obj.gvr d oid sp).apis obj.gvr =
        some sp ∧
      alookup (s.withResource obj).apis obj.gvr =
        some (Provider.singletonGet ptr) := by
  have hframe := Server.forGVR_found_frame s obj.gvr d oid sp ptr h
  refine ⟨hframe.1, hframe.2.1, ?_, ?_⟩
  · rw [hframe.2.2]
    exact alookup_ainsert_self _ _ _
  · unfold Server.withResource
    dsimp only
    rw [h]
    dsimp only
    have h0 : alookup
        ({ s with schemeBuilder := s.schemeBuilder ++ [obj.objId] } : Server).storage
        obj.gvr.groupResource = some ptr := h
    have hframe2 := Server.forGVR_found_frame _ obj.gvr obj.isDefaulter
      obj.objId (Provider.singletonGet ptr) ptr h0
    rw [hframe2.2.2]
    exact alookup_ainsert_self _ _ _

/-- Witness for the amended C3 theorem at a concrete re-registration. -/
theorem reregistration_keeps_singleton_witness :
    ((initialServer.withResourceAndHandler
          (ResourceObject.mk ⟨"apps", "v1", "widgets"⟩
            false false false false false false 1) 1).forGroupVersionResource
        (ResourceObject.mk ⟨"apps", "v2", "widgets"⟩
          false false false false false false 2).gvr false 2
        (Provider.userProvided 2)).storage =
      (initialServer.withResourceAndHandler
        (ResourceObject.mk ⟨"apps", "v1", "widgets"⟩
          false false false false false false 1) 1).storage ∧
    ((initialServer.withResourceAndHandler
          (ResourceObject.mk ⟨"apps", "v1", "widgets"⟩
            false false false false false false 1) 1).forGroupVersionResource
        (ResourceObject.mk ⟨"apps", "v2", "widgets"⟩
          false false false false false false 2).gvr false 2
        (Provider.userProvided 2)).heap =
      (initialServer.withResourceAndHandler
        (ResourceObject.mk ⟨"apps", "v1", "widgets"⟩
          false false false false false false 1) 1).heap ∧
    alookup
        ((initialServer.withResourceAndHandler
              (ResourceObject.mk ⟨"apps", "v1", "widgets"⟩
                false false false false false false 1) 1).forGroupVersionResource
            (ResourceObject.mk ⟨"apps", "v2", "widgets"⟩
              false false false false false false 2).gvr false 2
            (Provider.userProvided 2)).apis
        (ResourceObject.mk ⟨"apps", "v2", "widgets"⟩
          false false false false false false 2).gvr =
      some (Provider.userProvided 2) ∧
    alookup
        ((initialServer.withResourceAndHandler
              (ResourceObject.mk ⟨"apps", "v1", "widgets"⟩
                false false false false false false 1) 1).withResource
            (ResourceObject.mk ⟨"apps", "v2", "widgets"⟩
              false false false false false false 2)).apis
        (ResourceObject.mk ⟨"apps", "v2", "widgets"⟩
          false false false false false false 2).gvr =
      some (Provider.singletonGet 0) :=
  reregistration_keeps_singleton _ _ false 2 (Provider.userProvided 2) 0
    (by decide)

/-- The parent group-resource differs from its status sub-resource
group-resource: `r` and `r + "/status"` are distinct resource names. -/
theorem groupResource_ne_status (gvr : GroupVersionResource) :
    gvr.groupResource ≠ (statusGVR gvr).groupResource := by
  unfold statusGVR GroupVersionResource.groupResource GroupVersion.withResource
    GroupVersionResource.groupVersion
  intro hEq
  have h2 : gvr.resource = gvr.resource ++ "/status" :=
    congrArg GroupResource.resource hEq
  have h3 : gvr.resource.length =
      gvr.resource.length + ("/status" : String).length := by
    conv_lhs => rw [h2]
    exact String.length_append _ _
  have h4 : ("/status" : String).length = 7 := rfl
  omega

/-- C8 counterexample: a resource object that implements
`ObjectWithStatusSubResource` but also implements `resourcerest.Creator`
takes the self-serving branch of `WithResource` (builder.go lines 126-135),
which returns before the automatic status registration — no `.../status` key
is registered, refuting "whenever a primary resource object registered via
WithResource implements the recognized has-status capability, the
.../status child key is registered automatically". -/
theorem withResource_status_skipped_for_selfserving :
    (ResourceObject.mk ⟨"apps", "v1", "widgets"⟩
        true false false false true false 3).hasStatusSub = true ∧
      alookup
          (initialServer.withResource
            (ResourceObject.mk ⟨"apps", "v1", "widgets"⟩
              true false false false true false 3)).apis
          (statusGVR ⟨"apps", "v1", "widgets"⟩) = none ∧
      alookup
          (initialServer.withResource
            (ResourceObject.mk ⟨"apps", "v1", "widgets"⟩
              true false false false true false 3)).storage
          (statusGVR ⟨"apps", "v1", "widgets"⟩).groupResource = none := by
  decide

/-- C8 (amended): when a primary resource registered via `WithResource`
implements the status capability, does NOT implement any of the rest-serving
capabilities, and its own group-resource is not yet registered, the
`.../status` child key is registered automatically with the reuse-or-create
rule of sub-resource registration: an existing provider for the status
group-resource is reused (its `Get` is bound, no new singleton is created —
the heap grows only by the primary's singleton), and the status factory
`rest.NewStatus` is used only on first creation. -/
theorem withResource_status_reuse_or_create (s : Server) (obj : ResourceObject)
    (h1 : alookup s.storage obj.gvr.groupResource = none)
    (h2 : obj.selfServing = false)
    (h3 : obj.hasStatusSub = true) :
    (∀ ptr, alookup s.storage (statusGVR obj.gvr).groupResource = some ptr →
        alookup (s.withResource obj).apis (statusGVR obj.gvr) =
            some (Provider.singletonGet ptr) ∧
          (s.withResource obj).heap.length = s.heap.length + 1) ∧
      (alookup s.storage (statusGVR obj.gvr).groupResource = none →
        alookup (s.withResource obj).apis (statusGVR obj.gvr) =
            some (Provider.restNewStatus obj.objId) ∧
          alookup (s.withResource obj).storage
              (statusGVR obj.gvr).groupResource = some (s.heap.length + 1) ∧
          (s.withResource obj).heap[s.heap.length + 1]? =
            some (Singleton.mk false (Provider.restNewStatus obj.objId) none none)) := by
  have h0 : alookup
      ({ s with schemeBuilder := s.schemeBuilder ++ [obj.objId] } : Server).storage
      obj.gvr.groupResource = none := h1
  have hA := Server.forGVR_notfound
    ({ s with schemeBuilder := s.schemeBuilder ++ [obj.objId] } : Server)
    obj.gvr obj.isDefaulter obj.objId (Provider.restNew obj.objId) h0
  have hne := groupResource_ne_status obj.gvr
  have hstLookup : alookup
      (({ s with schemeBuilder := s.schemeBuilder ++ [obj.objId] } : Server).forGroupVersionResource
        obj.gvr obj.isDefaulter obj.objId (Provider.restNew obj.objId)).storage
      (statusGVR obj.gvr).groupResource =
      alookup s.storage (statusGVR obj.gvr).groupResource := by
    rw [hA.1]
    exact alookup_ainsert_ne _ _ _ _ hne
  have hred : s.withResource obj =
      (match alookup
          (({ s with schemeBuilder := s.schemeBuilder ++ [obj.objId] } : Server).forGroupVersionResource
            obj.gvr obj.isDefaulter obj.objId (Provider.restNew obj.objId)).storage
          (statusGVR obj.gvr).groupResource with
       | some ptr =>
         (({ s with schemeBuilder := s.schemeBuilder ++ [obj.objId] } : Server).forGroupVersionResource
            obj.gvr obj.isDefaulter obj.objId
            (Provider.restNew obj.objId)).forGroupVersionResource
           (statusGVR obj.gvr) obj.isDefaulter obj.objId
           (Provider.singletonGet ptr)
       | none =>
         (({ s with schemeBuilder := s.schemeBuilder ++ [obj.objId] } : Server).forGroupVersionResource
            obj.gvr obj.isDefaulter obj.objId
            (Provider.restNew obj.objId)).forGroupVersionResource
           (statusGVR obj.gvr) obj.isDefaulter obj.objId
           (Provider.restNewStatus obj.objId)) := by
    unfold Server.withResource
    dsimp only
    rw [h1]
    dsimp only
    simp only [h2, h3, Bool.false_eq_true, if_false, if_true]
  rw [hred]
  constructor
  · intro ptr hptr
    rw [hstLookup, hptr]
    dsimp only
    have hB := Server.forGVR_found_frame _ (statusGVR obj.gvr) obj.isDefaulter
      obj.objId (Provider.singletonGet ptr) ptr (by rw [hstLookup]; exact hptr)
    refine ⟨?_, ?_⟩
    · rw [hB.2.2]
      exact alookup_ainsert_self _ _ _
    · rw [hB.2.1, hA.2.1]
      simp
  · intro hnone
    rw [hstLookup, hnone]
    dsimp only
    have hB := Server.forGVR_notfound _ (statusGVR obj.gvr) obj.isDefaulter
      obj.objId (Provider.restNewStatus obj.objId) (by rw [hstLookup]; exact hnone)
    refine ⟨?_, ?_, ?_⟩
    · rw [hB.2.2]
      exact alookup_ainsert_self _ _ _
    · rw [hB.1]
      have hlen : (({ s with schemeBuilder := s.schemeBuilder ++ [obj.objId] } : Server).forGroupVersionResource
          obj.gvr obj.isDefaulter obj.objId (Provider.restNew obj.objId)).heap.length =
          s.heap.length + 1 := by
        rw [hA.2.1]
        simp
      rw [hlen]
      exact alookup_ainsert_self _ _ _
    · rw [hB.2.1, hA.2.1]
      have hidx : s.heap.length + 1 =
          (({ s with schemeBuilder := s.schemeBuilder ++ [obj.objId] } : Server).heap ++
            [Singleton.mk false (Provider.restNew obj.objId) none none]).length := by
        simp
      rw [hidx, List.getElem?_concat_length]

/-- Witness for the amended C8 theorem at a concrete fresh registration. -/
theorem withResource_status_reuse_or_create_witness :
    (∀ ptr, alookup initialServer.storage
          (statusGVR (ResourceObject.mk ⟨"apps", "v1", "widgets"⟩
            false false false false true false 4).gvr).groupResource =
          some ptr →
        alookup
            (initialServer.withResource
              (ResourceObject.mk ⟨"apps", "v1", "widgets"⟩
                false false false false true false 4)).apis
            (statusGVR (ResourceObject.mk ⟨"apps", "v1", "widgets"⟩
              false false false false true false 4).gvr) =
            some (Provider.singletonGet ptr) ∧
          (initialServer.withResource
            (ResourceObject.mk ⟨"apps", "v1", "widgets"⟩
              false false false false true false 4)).heap.length =
            initialServer.heap.length + 1) ∧
      (alookup initialServer.storage
          (statusGVR (ResourceObject.mk ⟨"apps", "v1", "widgets"⟩
            false false false false true false 4).gvr).groupResource = none →
        alookup
            (initialServer.withResource
              (ResourceObject.mk ⟨"apps", "v1", "widgets"⟩
                false false false false true false 4)).apis
            (statusGVR (ResourceObject.mk ⟨"apps", "v1", "widgets"⟩
              false false false false true false 4).gvr) =
            some (Provider.restNewStatus
              (ResourceObject.mk ⟨"apps", "v1", "widgets"⟩
                false false false false true false 4).objId) ∧
          alookup
              (initialServer.withResource
                (ResourceObject.mk ⟨"apps", "v1", "widgets"⟩
                  false false false false true false 4)).storage
              (statusGVR (ResourceObject.mk ⟨"apps", "v1", "widgets"⟩
                false false false false true false 4).gvr).groupResource =
            some (initialServer.heap.length + 1) ∧
          (initialServer.withResource
            (ResourceObject.mk ⟨"apps", "v1", "widgets"⟩
              false false false false true false 4)).heap[initialServer.heap.length + 1]? =
            some (Singleton.mk false
              (Provider.restNewStatus
                (ResourceObject.mk ⟨"apps", "v1", "widgets"⟩
                  false false false false true false 4).objId) none none)) :=
  withResource_status_reuse_or_create initialServer
    (ResourceObject.mk ⟨"apps", "v1", "widgets"⟩ false false false false true false 4)
    (by decide) (by decide) (by decide)

/-- C6 counterexample: with a registered scheme installer that fails with
error `E` and a pending deferred error `d`, `Build()` panics with `E`
(builder.go line 348) — it does not return the underlying error (nor any
error value) to its caller. -/
theorem build_installer_failure_panics :
    ({ initialServer with schemeBuilder := [7], errs := [['d']] } : Server).build
        (InstallerEnv.mk (fun f _ => if f = 7 then some ['E'] else none)
          (fun _ => none)) =
      BuildResult.panicked ['E'] ∧
      ({ initialServer with schemeBuilder := [7], errs := [['d']] } : Server).build
          (InstallerEnv.mk (fun f _ => if f = 7 then some ['E'] else none)
            (fun _ => none)) ≠
        BuildResult.returnedErr [['E']] ∧
      ({ initialServer with schemeBuilder := [7], errs := [['d']] } : Server).build
          (InstallerEnv.mk (fun f _ => if f = 7 then some ['E'] else none)
            (fun _ => none)) ≠
        BuildResult.returnedErr [['d'], ['E']] := by
  decide

/-- C6 (amended): if applying the deferred scheme-installer callbacks to the
target type-registries fails, `Build()` aborts immediately by panicking with
that single underlying error: the failure is not aggregated with the deferred
usage errors (the result is independent of the error sink), no error value is
returned to the caller, and no runnable command is produced. -/
theorem build_panics_on_installer_error (s : Server) (env : InstallerEnv)
    (e : Str)
    (h : firstInstallErr env s.schemeBuilder (s.schemes ++ [baseSchemeId]) =
      some e) :
    s.build env = BuildResult.panicked e ∧
      (∀ l, s.build env ≠ BuildResult.returnedErr l) ∧
      (∀ gvs, s.build env ≠ BuildResult.ok gvs) := by
  have hb : s.build env = BuildResult.panicked e := by
    unfold Server.build
    dsimp only
    rw [h]
  exact ⟨hb, fun l => by simp [hb], fun gvs => by simp [hb]⟩

/-- Witness for the amended C6 theorem at a concrete failing installer. -/
theorem build_panics_on_installer_error_witness :
    ({ initialServer with schemeBuilder := [9], errs := [['d']] } : Server).build
        (InstallerEnv.mk (fun f _ => if f = 9 then some ['F'] else none)
          (fun _ => none)) =
      BuildResult.panicked ['F'] ∧
      (∀ l, ({ initialServer with schemeBuilder := [9], errs := [['d']] } : Server).build
          (InstallerEnv.mk (fun f _ => if f = 9 then some ['F'] else none)
            (fun _ => none)) ≠
        BuildResult.returnedErr l) ∧
      (∀ gvs, ({ initialServer with schemeBuilder := [9], errs := [['d']] } : Server).build
          (InstallerEnv.mk (fun f _ => if f = 9 then some ['F'] else none)
            (fun _ => none)) ≠
        BuildResult.ok gvs) :=
  build_panics_on_installer_error _ _ ['F'] (by decide)

/-! ## Structure of the aggregated error message -/

theorem prefix_joinWithNewlines (c : Str) (l : List Str) :
    c <+: joinWithNewlines (c :: l) := by
  cases l with
  | nil => simp [joinWithNewlines]
  | cons m rest => simp [joinWithNewlines]

theorem infix_joinWithNewlines (m : Str) (l : List Str) (h : m ∈ l) :
    m <:+: joinWithNewlines l := by
  induction l with
  | nil => cases h
  | cons c rest ih =>
    rcases List.mem_cons.mp h with rfl | h2
    · exact (prefix_joinWithNewlines m rest).isInfix
    · have hr := ih h2
      cases rest with
      | nil => cases h2
      | cons r0 rmore =>
        have hj : joinWithNewlines (c :: r0 :: rmore) =
            (c ++ ['\n']) ++ joinWithNewlines (r0 :: rmore) := by
          simp [joinWithNewlines]
        rw [hj]
        exact hr.trans (List.suffix_append _ _).isInfix

theorem splitLines_ne_nil (s : Str) : splitLines s ≠ [] := by
  cases s with
  | nil => simp [splitLines]
  | cons c rest =>
    simp only [splitLines]
    split
    · simp
    · split <;> simp

theorem splitLines_prepend (s line : Str) (more : List Str)
    (h : splitLines s = line :: more) :
    ∀ m : Str, '\n' ∉ m → splitLines (m ++ s) = (m ++ line) :: more := by
  intro m
  induction m with
  | nil =>
    intro _
    simpa using h
  | cons c m' ih =>
    intro hm
    have hc : c ≠ '\n' := fun e => hm (by rw [← e]; exact List.mem_cons_self _ _)
    have hm' : '\n' ∉ m' := fun e => hm (List.mem_cons_of_mem _ e)
    show splitLines (c :: (m' ++ s)) = ((c :: m') ++ line) :: more
    simp only [splitLines, ih hm']
    rw [if_neg hc]
    simp

theorem splitLines_newline (t : Str) :
    splitLines ('\n' :: t) = [] :: splitLines t := by
  simp only [splitLines]
  cases h : splitLines t with
  | nil => exact absurd h (splitLines_ne_nil t)
  | cons a b => simp

theorem splitLines_joinWithNewlines :
    ∀ (msgs : List Str), msgs ≠ [] → (∀ m ∈ msgs, '\n' ∉ m) →
      splitLines (joinWithNewlines msgs) = msgs := by
  intro msgs
  induction msgs with
  | nil => intro h; cases h rfl
  | cons m rest ih =>
    intro _ hnl
    cases rest with
    | nil =>
      have h0 : splitLines ([] : Str) = [] :: [] := rfl
      have := splitLines_prepend [] [] [] h0 m (hnl m (List.mem_cons_self _ _))
      simpa [joinWithNewlines] using this
    | cons r0 rmore =>
      have hrest := ih (by simp) (fun x hx => hnl x (List.mem_cons_of_mem _ hx))
      have hjoin : joinWithNewlines (m :: r0 :: rmore) =
          m ++ '\n' :: joinWithNewlines (r0 :: rmore) := rfl
      rw [hjoin]
      have hsplit : splitLines ('\n' :: joinWithNewlines (r0 :: rmore)) =
          [] :: (r0 :: rmore) := by
        rw [splitLines_newline, hrest]
      have := splitLines_prepend _ _ _ hsplit m (hnl m (List.mem_cons_self _ _))
      rw [this]
      simp

theorem decDigitChar_ne_newline (d : Nat) : decDigitChar d ≠ '\n' := by
  unfold decDigitChar
  have h : d % 10 < 10 := Nat.mod_lt _ (by norm_num)
  generalize d % 10 = k at h
  interval_cases k <;> decide

theorem newline_notin_natToDecAux (fuel : Nat) :
    ∀ (n : Nat) (acc : List Char), '\n' ∉ acc →
      '\n' ∉ natToDecAux fuel n acc := by
  induction fuel with
  | zero =>
    intro n acc h
    simpa [natToDecAux] using h
  | succ f ih =>
    intro n acc h
    have h' : '\n' ∉ decDigitChar (n % 10) :: acc := by
      intro hx
      rcases List.mem_cons.mp hx with e | e
      · exact decDigitChar_ne_newline _ e.symm
      · exact h e
    simp only [natToDecAux]
    split
    · exact h'
    · exact ih (n / 10) _ h'

theorem newline_notin_natToDecChars (n : Nat) : '\n' ∉ natToDecChars n :=
  newline_notin_natToDecAux _ _ _ (by simp)

theorem newline_notin_countLine (n : Nat) :
    '\n' ∉ natToDecChars n ++ countSuffix := by
  intro h
  rcases List.mem_append.mp h with h | h
  · exact newline_notin_natToDecChars n h
  · revert h
    decide

/-- C7: for every non-empty list of deferred errors (whose messages are
single-line, as all messages the builder records are), `Build()` returns the
aggregate error value holding that list, and its formatted message splits
into a first line carrying the total error count (`"N errors: "` with
`N = list.length`) followed by one line per underlying error, in the order
they were recorded. -/
theorem build_error_message_lines (s : Server) (env : InstallerEnv)
    (hne : s.errs ≠ [])
    (hok : firstInstallErr env s.schemeBuilder (s.schemes ++ [baseSchemeId]) =
      none)
    (hnl : ∀ m ∈ s.errs, '\n' ∉ m) :
    s.build env = BuildResult.returnedErr s.errs ∧
      splitLines (errsError s.errs) =
        (natToDecChars s.errs.length ++ countSuffix) :: s.errs := by
  constructor
  · unfold Server.build
    dsimp only
    rw [hok]
    rw [if_neg (by simp only [List.isEmpty_iff]; exact hne)]
  · unfold errsError
    apply splitLines_joinWithNewlines
    · simp
    · intro m hm
      rcases List.mem_cons.mp hm with rfl | h2
      · exact newline_notin_countLine _
      · exact hnl m h2

/-- Witness for C7 at a concrete one-error sink. -/
theorem build_error_message_lines_witness :
    ({ initialServer with errs := [['a', 'b']] } : Server).build
        (InstallerEnv.mk (fun _ _ => none) (fun _ => none)) =
      BuildResult.returnedErr [['a', 'b']] ∧
      splitLines (errsError [['a', 'b']]) =
        (natToDecChars ([['a', 'b']] : List Str).length ++ countSuffix) ::
          [['a', 'b']] :=
  build_error_message_lines
    ({ initialServer with errs := [['a', 'b']] } : Server)
    (InstallerEnv.mk (fun _ _ => none) (fun _ => none))
    (by decide) (by decide) (by decide)

/-- C5: when no provider exists for the derived sub-resource key,
`WithSubResource` records the deferred error without interrupting the fluent
chain, and a subsequent `Build()` (whose scheme installation succeeds)
returns no artifact: it returns the aggregated deferred errors, whose count
is at least 1, whose list contains the specific sub-resource message, and
whose formatted message starts with the `"N errors: "` count line and
contains the specific sub-resource error text. -/
theorem withSubResource_missing_provider_fails_build (s : Server)
    (parent req : ResourceObject) (path : String) (env : InstallerEnv)
    (h : alookup s.storage (subResourceGVR parent path).groupResource = none)
    (hok : firstInstallErr env s.schemeBuilder (s.schemes ++ [baseSchemeId]) =
      none) :
    (s.withSubResource parent path req).errs = s.errs ++ [subResourceErrMsg] ∧
      (s.withSubResource parent path req).build env =
        BuildResult.returnedErr (s.errs ++ [subResourceErrMsg]) ∧
      1 ≤ (s.errs ++ [subResourceErrMsg]).length ∧
      subResourceErrMsg ∈ s.errs ++ [subResourceErrMsg] ∧
      subResourceErrMsg <:+: errsError (s.errs ++ [subResourceErrMsg]) ∧
      (natToDecChars (s.errs ++ [subResourceErrMsg]).length ++ countSuffix) <+:
        errsError (s.errs ++ [subResourceErrMsg]) := by
  have hs' : s.withSubResource parent path req =
      { s with errs := s.errs ++ [subResourceErrMsg] } := by
    unfold Server.withSubResource
    dsimp only
    rw [h]
  refine ⟨by rw [hs'], ?_, by simp, by simp, ?_, ?_⟩
  · rw [hs']
    unfold Server.build
    dsimp only
    rw [hok]
    rw [if_neg (by simp)]
  · unfold errsError
    exact infix_joinWithNewlines _ _ (List.mem_cons_of_mem _ (by simp))
  · unfold errsError
    exact prefix_joinWithNewlines _ _

/-- Witness for C5 at a concrete sub-resource registration on a fresh
builder. -/
theorem withSubResource_missing_provider_fails_build_witness :
    (initialServer.withSubResource
        (ResourceObject.mk ⟨"apps", "v1", "widgets"⟩
          false false false false false false 1) "scale"
        (ResourceObject.mk ⟨"apps", "v1", "widgets"⟩
          false false false false false false 9)).errs =
      initialServer.errs ++ [subResourceErrMsg] ∧
      (initialServer.withSubResource
          (ResourceObject.mk ⟨"apps", "v1", "widgets"⟩
            false false false false false false 1) "scale"
          (ResourceObject.mk ⟨"apps", "v1", "widgets"⟩
            false false false false false false 9)).build
          (InstallerEnv.mk (fun _ _ => none) (fun _ => none)) =
        BuildResult.returnedErr (initialServer.errs ++ [subResourceErrMsg]) ∧
      1 ≤ (initialServer.errs ++ [subResourceErrMsg]).length ∧
      subResourceErrMsg ∈ initialServer.errs ++ [subResourceErrMsg] ∧
      subResourceErrMsg <:+:
        errsError (initialServer.errs ++ [subResourceErrMsg]) ∧
      (natToDecChars (initialServer.errs ++ [subResourceErrMsg]).length ++
          countSuffix) <+:
        errsError (initialServer.errs ++ [subResourceErrMsg]) :=
  withSubResource_missing_provider_fails_build initialServer
    (ResourceObject.mk ⟨"apps", "v1", "widgets"⟩ false false false false false false 1)
    (ResourceObject.mk ⟨"apps", "v1", "widgets"⟩ false false false false false false 9)
    "scale" (InstallerEnv.mk (fun _ _ => none) (fun _ => none))
    (by decide) (by decide)

/-- C4: the per-group version-priority ordering computed at `Build` time is
deterministic and a pure function of the set of observed (group, version)
pairs: any two `apiserver.APIs` key populations observing the same
group-versions yield the identical ordered version list passed to
`SetVersionPriority` for each group, and that list is the sorted order
(without duplicates) of exactly the version strings observed for the
group. -/
theorem versionPriority_deterministic (l₁ l₂ : List GroupVersionResource)
    (g : String)
    (h : ∀ v, (∃ gvr ∈ l₁, gvr.group = g ∧ gvr.version = v) ↔
              (∃ gvr ∈ l₂, gvr.group = g ∧ gvr.version = v)) :
    versionPriority l₁ g = versionPriority l₂ g ∧
      (versionPriority l₁ g).Sorted (· ≤ ·) ∧
      (versionPriority l₁ g).Nodup ∧
      (∀ v, v ∈ versionPriority l₁ g ↔
        ∃ gvr ∈ l₁, gvr.group = g ∧ gvr.version = v) := by
  have hmem : ∀ (l : List GroupVersionResource) (v : String),
      v ∈ observedVersions l g ↔ ∃ gvr ∈ l, gvr.group = g ∧ gvr.version = v := by
    intro l v
    unfold observedVersions
    simp only [List.mem_dedup, List.mem_map, List.mem_filter, beq_iff_eq]
    constructor
    · rintro ⟨gvr, ⟨hm, hg⟩, hv⟩
      exact ⟨gvr, hm, hg, hv⟩
    · rintro ⟨gvr, hm, hg, hv⟩
      exact ⟨gvr, ⟨hm, hg⟩, hv⟩
  have n1 : (observedVersions l₁ g).Nodup := by
    unfold observedVersions
    exact List.nodup_dedup _
  have n2 : (observedVersions l₂ g).Nodup := by
    unfold observedVersions
    exact List.nodup_dedup _
  have hperm : List.Perm (observedVersions l₁ g) (observedVersions l₂ g) :=
    (List.perm_ext_iff_of_nodup n1 n2).2
      (fun v => by rw [hmem l₁ v, hmem l₂ v]; exact h v)
  have hs1 : (versionPriority l₁ g).Sorted (· ≤ ·) :=
    List.sorted_insertionSort _ _
  have hs2 : (versionPriority l₂ g).Sorted (· ≤ ·) :=
    List.sorted_insertionSort _ _
  have hp1 : List.Perm (versionPriority l₁ g) (observedVersions l₁ g) :=
    List.perm_insertionSort _ _
  have hp2 : List.Perm (versionPriority l₂ g) (observedVersions l₂ g) :=
    List.perm_insertionSort _ _
  refine ⟨?_, hs1, ?_, ?_⟩
  · exact List.eq_of_perm_of_sorted (hp1.trans (hperm.trans hp2.symm)) hs1 hs2
  · exact hp1.nodup_iff.2 n1
  · intro v
    rw [hp1.mem_iff, hmem]

/-- Witness for C4 on two insertion orders of the same two versions. -/
theorem versionPriority_deterministic_witness :
    versionPriority [GroupVersionResource.mk "apps" "v2" "widgets",
        GroupVersionResource.mk "apps" "v1" "widgets"] "apps" =
      versionPriority [GroupVersionResource.mk "apps" "v1" "widgets",
        GroupVersionResource.mk "apps" "v2" "widgets"] "apps" ∧
      (versionPriority [GroupVersionResource.mk "apps" "v2" "widgets",
        GroupVersionResource.mk "apps" "v1" "widgets"] "apps").Sorted (· ≤ ·) ∧
      (versionPriority [GroupVersionResource.mk "apps" "v2" "widgets",
        GroupVersionResource.mk "apps" "v1" "widgets"] "apps").Nodup ∧
      (∀ v, v ∈ versionPriority [GroupVersionResource.mk "apps" "v2" "widgets",
          GroupVersionResource.mk "apps" "v1" "widgets"] "apps" ↔
        ∃ gvr ∈ [GroupVersionResource.mk "apps" "v2" "widgets",
          GroupVersionResource.mk "apps" "v1" "widgets"],
          gvr.group = "apps" ∧ gvr.version = v) :=
  versionPriority_deterministic _ _ "apps"
    (by
      intro v
      constructor <;>
        · rintro ⟨gvr, hm, hp⟩
          exact ⟨gvr, by simpa [or_comm] using hm, hp⟩)


/-- The group-version bookkeeping invariant: `orderedGroupVersions` is
duplicate-free, holds exactly the keys of the `groupVersions` map, lists the
observed group-versions in first-seen order, and covers the group-version of
every key bound in `apiserver.APIs`. -/
def GVInv (s : Server) : Prop :=
  s.orderedGroupVersions.Nodup ∧
    (∀ gv, gv ∈ s.orderedGroupVersions ↔ s.groupVersions gv = true) ∧
    s.orderedGroupVersions = firstSeen s.observed ∧
    (∀ p ∈ s.apis,
      GroupVersionResource.groupVersion p.1 ∈ s.orderedGroupVersions)

theorem firstSeen_snoc (l : List GroupVersion) (gv : GroupVersion) :
    firstSeen (l ++ [gv]) = firstSeenStep (firstSeen l) gv := by
  simp [firstSeen, List.foldl_append]

theorem gvinv_observeGV (s : Server) (gv : GroupVersion) (h : GVInv s) :
    GVInv (s.observeGV gv) := by
  obtain ⟨h1, h2, h3, h4⟩ := h
  unfold Server.observeGV
  dsimp only
  by_cases hm : s.groupVersions gv = true
  · rw [if_pos hm]
    refine ⟨h1, h2, ?_, h4⟩
    show s.orderedGroupVersions = firstSeen (s.observed ++ [gv])
    rw [firstSeen_snoc, ← h3]
    unfold firstSeenStep
    rw [if_pos ((h2 gv).2 hm)]
  · rw [if_neg hm]
    have hnotmem : gv ∉ s.orderedGroupVersions := fun hin => hm ((h2 gv).1 hin)
    refine ⟨?_, ?_, ?_, ?_⟩
    · show (s.orderedGroupVersions ++ [gv]).Nodup
      simp [List.nodup_append, h1, hnotmem]
    · intro x
      show x ∈ s.orderedGroupVersions ++ [gv] ↔
        (if x = gv then true else s.groupVersions x) = true
      by_cases hx : x = gv
      · subst hx
        simp
      · simp only [List.mem_append, List.mem_singleton, hx, if_neg hx,
          or_false]
        exact h2 x
    · show s.orderedGroupVersions ++ [gv] = firstSeen (s.observed ++ [gv])
      rw [firstSeen_snoc, ← h3]
      unfold firstSeenStep
      rw [if_neg hnotmem]
    · intro p hp
      exact List.mem_append_left _ (h4 p hp)

theorem mem_observeGV_self (s : Server) (gv : GroupVersion)
    (h2 : ∀ x, x ∈ s.orderedGroupVersions ↔ s.groupVersions x = true) :
    gv ∈ (s.observeGV gv).orderedGroupVersions := by
  unfold Server.observeGV
  dsimp only
  by_cases hm : s.groupVersions gv = true
  · rw [if_pos hm]
    exact (h2 gv).2 hm
  · rw [if_neg hm]
    exact List.mem_append_right _ (List.mem_singleton_self _)

theorem gvinv_forGVR (s : Server) (gvr : GroupVersionResource) (d : Bool)
    (oid : Nat) (sp : Provider) (h : GVInv s) :
    GVInv (s.forGroupVersionResource gvr d oid sp) := by
  have hobs : GVInv (s.observeGV gvr.groupVersion) := gvinv_observeGV s _ h
  have hmem : gvr.groupVersion ∈
      (s.observeGV gvr.groupVersion).orderedGroupVersions :=
    mem_observeGV_self s _ h.2.1
  obtain ⟨i1, i2, i3, i4⟩ := hobs
  unfold Server.forGroupVersionResource
  rw [Server.withGroupVersions_single]
  dsimp only
  split <;> split <;>
    · refine ⟨i1, i2, i3, ?_⟩
      intro p hp
      rcases mem_ainsert _ _ _ _ hp with rfl | hold
      · exact hmem
      · exact i4 p hold

theorem gvinv_applyOp (s : Server) (op : Op) (h : GVInv s) :
    GVInv (applyOp s op) := by
  cases op with
  | withResource obj =>
    show GVInv (s.withResource obj)
    unfold Server.withResource
    dsimp only
    split
    · exact gvinv_forGVR _ _ _ _ _ h
    · split
      · exact gvinv_forGVR _ _ _ _ _ h
      · split
        · split
          · exact gvinv_forGVR _ _ _ _ _ (gvinv_forGVR _ _ _ _ _ h)
          · exact gvinv_forGVR _ _ _ _ _ (gvinv_forGVR _ _ _ _ _ h)
        · exact gvinv_forGVR _ _ _ _ _ h
  | withResourceAndStrategy obj sid =>
    show GVInv (s.withResourceAndStrategy obj sid)
    unfold Server.withResourceAndStrategy
    dsimp only
    split
    · exact gvinv_forGVR _ _ _ _ _ (gvinv_forGVR _ _ _ _ _ h)
    · exact gvinv_forGVR _ _ _ _ _ h
  | withResourceAndHandler obj pid =>
    exact gvinv_forGVR _ _ _ _ _ h
  | withResourceAndStorage obj fid =>
    show GVInv (s.withResourceAndStorage obj fid)
    unfold Server.withResourceAndStorage
    dsimp only
    split
    · exact gvinv_forGVR _ _ _ _ _ (gvinv_forGVR _ _ _ _ _ h)
    · exact gvinv_forGVR _ _ _ _ _ h
  | withSubResource parent path req =>
    show GVInv (s.withSubResource parent path req)
    unfold Server.withSubResource
    dsimp only
    split
    · exact gvinv_forGVR _ _ _ _ _ h
    · exact ⟨h.1, h.2.1, h.2.2.1, h.2.2.2⟩
  | withSubResourceAndStrategy parent path req sid =>
    exact gvinv_forGVR _ _ _ _ _ h
  | withSubResourceAndHandler parent path req pid =>
    exact gvinv_forGVR _ _ _ _ _ h

/-- C9: every registration path records the registered key group-version,
and after any fluent chain of registration calls from the fresh builder the
ordered group-version list is duplicate-free, holds exactly the keys of the
group-version map, lists the observed group-versions in first-seen order,
and contains the group-version of every GroupVersionResource bound in
`apiserver.APIs`. -/
theorem builder_groupVersion_invariant (ops : List Op) :
    (applyOps initialServer ops).orderedGroupVersions.Nodup ∧
      (∀ gv, gv ∈ (applyOps initialServer ops).orderedGroupVersions ↔
        (applyOps initialServer ops).groupVersions gv = true) ∧
      (applyOps initialServer ops).orderedGroupVersions =
        firstSeen (applyOps initialServer ops).observed ∧
      (∀ p ∈ (applyOps initialServer ops).apis,
        GroupVersionResource.groupVersion p.1 ∈
          (applyOps initialServer ops).orderedGroupVersions) := by
  have main : ∀ (l : List Op) (s : Server), GVInv s → GVInv (applyOps s l) := by
    intro l
    induction l with
    | nil =>
      intro s h
      exact h
    | cons op rest ih =>
      intro s h
      exact ih _ (gvinv_applyOp s op h)
  have h0 : GVInv initialServer := by
    refine ⟨List.nodup_nil, ?_, rfl, ?_⟩
    · intro gv
      simp [initialServer]
    · intro p hp
      simp [initialServer] at hp
  exact main ops initialServer h0

end Builder
